import Mathlib

/-!
Shallow embedding of `pwgen.py`, a command-line generator of random
passwords, passphrases and hex/url tokens, together with proofs of the
spec-level properties of its core functions.

Modelling conventions:
* Python's unbounded `int` is `ℤ` for user-supplied lengths, `ℕ` for counts.
* `math.log2` (IEEE double) is modelled by the exact real `Real.logb 2`;
  `int(...)` truncation of a nonnegative value is `Int.floor`.
* `secrets.choice` draws are modelled by an oracle `ℕ → ℕ` supplying the
  index of each draw; a uniform index is any value reduced mod the list
  length.  The unbounded rejection loop of `generate_password` takes an
  explicit fuel bound; running out of fuel models a loop that has not yet
  terminated.
* The filesystem is a finite association list from paths to file contents.
* Python exceptions are an explicit error type; exceptions that the code
  can raise but never catches (`UnboundLocalError` from the unassigned
  `fp`, `IndexError` from `secrets.choice([])`) are separate variants.
-/

/-- Exceptions the embedded program can raise. -/
inductive PyError
  | valueError (msg : String)
  | fileNotFoundError (msg : String)
  | unboundLocalError
  | indexError
  | invalidInput
  deriving DecidableEq, Repr

/-- `entropy(l, n) = int(l * math.log2(n))` from `pwgen.py`, with the
IEEE-double `math.log2` modelled by the exact real logarithm. -/
noncomputable def entropy (l n : ℕ) : ℤ :=
  ⌊(l : ℝ) * Real.logb 2 (n : ℝ)⌋

/-- `float(n ** l)`: the keyspace size reported next to the entropy,
modelled as an exact real. -/
noncomputable def combinations (l n : ℕ) : ℝ :=
  (n : ℝ) ^ l

/-- `string.ascii_lowercase`. -/
def asciiLowercase : String := "abcdefghijklmnopqrstuvwxyz"

/-- `string.ascii_uppercase`. -/
def asciiUppercase : String := "ABCDEFGHIJKLMNOPQRSTUVWXYZ"

/-- `string.digits`. -/
def asciiDigits : String := "0123456789"

/-- The punctuation literal added when `--punctuation` is set
(`"!#$%&()*+,-.:;<=>?@[\\]^_\x60\x7b|\x7d~"` in the source). -/
def punctuationChars : String := "!#$%&()*+,-.:;<=>?@[\\]^_\x60\x7b|\x7d~"

/-- The sampling alphabet of `generate_password`:
`string.ascii_letters + string.digits`, extended with the punctuation set
when requested. -/
def passwordChars (punctuation : Bool) : List Char :=
  (asciiLowercase ++ asciiUppercase ++ asciiDigits ++
    (if punctuation then punctuationChars else "")).data

/-- `c.islower()` restricted to the ASCII alphabet the program samples from. -/
def isLowerA (c : Char) : Bool := decide ('a' ≤ c) && decide (c ≤ 'z')

/-- `c.isupper()` restricted to the ASCII alphabet the program samples from. -/
def isUpperA (c : Char) : Bool := decide ('A' ≤ c) && decide (c ≤ 'Z')

/-- `c.isdigit()` restricted to the ASCII alphabet the program samples from. -/
def isDigitA (c : Char) : Bool := decide ('0' ≤ c) && decide (c ≤ '9')

/-- One candidate draw: `"".join(secrets.choice(chars) for _ in range(len))`,
the i-th uniform index supplied by `pick i`. -/
def drawList (chars : List Char) (pick : ℕ → ℕ) (len : ℕ) : List Char :=
  (List.range len).map fun i => chars.getD (pick i % chars.length) ' '

/-- The acceptance test of the rejection loop: at least one lowercase,
one uppercase and one digit character. -/
def passwordOk (s : List Char) : Bool :=
  s.any isLowerA && s.any isUpperA && s.any isDigitA

/-- The `while True` rejection loop of `generate_password`: attempt `k` draws
a candidate with oracle `oracle k` and keeps it iff `passwordOk`; `fuel`
bounds how many attempts we unfold (`none` = the loop is still running). -/
def genLoop (chars : List Char) (oracle : ℕ → ℕ → ℕ) (len : ℕ) :
    ℕ → ℕ → Option (List Char)
  | _, 0 => none
  | k, fuel + 1 =>
    let s := drawList chars (oracle k) len
    if passwordOk s then some s else genLoop chars oracle len (k + 1) fuel

/-- `generate_password(args)` from `pwgen.py`: reject lengths `≤ 13`, then
rejection-sample a string over the declared alphabet. -/
def generate_password (length : ℤ) (punctuation : Bool)
    (oracle : ℕ → ℕ → ℕ) (fuel : ℕ) : Except PyError (Option String) :=
  if length ≤ 13 then
    .error (.valueError "Password length must be greater than 13 characters")
  else
    .ok ((genLoop (passwordChars punctuation) oracle length.toNat 0 fuel).map String.mk)

/-- Whitespace in the sense of Python's `str.strip()` (ASCII fragment). -/
def isPySpace (c : Char) : Bool :=
  c = ' ' || c = '\t' || c = '\n' || c = '\r' || c = '\x0b' || c = '\x0c'

/-- `str.strip()`: remove leading and trailing whitespace. -/
def pyStrip (l : List Char) : List Char :=
  ((l.dropWhile isPySpace).reverse.dropWhile isPySpace).reverse

/-- ASCII alphabetic character (cased, for `str.title()` word boundaries). -/
def isAlphaA (c : Char) : Bool := isLowerA c || isUpperA c

/-- Uppercase one ASCII character, as in `str.upper()`. -/
def upperChar (c : Char) : Char :=
  if isLowerA c then Char.ofNat (c.toNat - 32) else c

/-- Lowercase one ASCII character, as in `str.lower()`. -/
def lowerChar (c : Char) : Char :=
  if isUpperA c then Char.ofNat (c.toNat + 32) else c

/-- `str.upper()` over a character list. -/
def pyUpper (l : List Char) : List Char := l.map upperChar

/-- `str.lower()` over a character list. -/
def pyLower (l : List Char) : List Char := l.map lowerChar

/-- The worker of `str.title()`: uppercase every alphabetic character that
starts an alphabetic run, lowercase the other alphabetic characters; the
boolean records whether the previous character was alphabetic. -/
def pyTitleAux : Bool → List Char → List Char
  | _, [] => []
  | prev, c :: cs =>
    if isAlphaA c then
      (if prev then lowerChar c else upperChar c) :: pyTitleAux true cs
    else
      c :: pyTitleAux false cs

/-- `str.title()` over a character list. -/
def pyTitle (l : List Char) : List Char := pyTitleAux false l

/-- The worker of `readlines`: `acc` is the reversed current line. -/
def readlinesAux : List Char → List Char → List (List Char)
  | acc, [] => if acc.isEmpty then [] else [acc.reverse]
  | acc, c :: cs =>
    if c = '\n' then (acc.reverse ++ ['\n']) :: readlinesAux [] cs
    else readlinesAux (c :: acc) cs

/-- `f.readlines()`: split the file contents into lines, each keeping its
trailing newline (the final line may lack one). -/
def pyReadlines (s : List Char) : List (List Char) := readlinesAux [] s

/-- The word list loaded by `generate_passphrase` from raw file contents:
with `--capitalize` each line is `word.title().strip()`; otherwise each
line contributes `(w.upper().strip(), w.lower().strip())`, flattened in
order by `chain.from_iterable`. -/
def loadWords (capitalize : Bool) (content : String) : List String :=
  if capitalize then
    (pyReadlines content.data).map fun l => ⟨pyStrip (pyTitle l)⟩
  else
    ((pyReadlines content.data).map fun l =>
      [(⟨pyStrip (pyUpper l)⟩ : String), ⟨pyStrip (pyLower l)⟩]).flatten

/-- The fixed fallback search order for a word list. -/
def wordlistFallback : List String :=
  ["words.txt", "/usr/share/dict/words", "/usr/dict/words",
   "/etc/dictionaries-common/words"]

/-- A filesystem: an association list from paths to file contents. -/
def Filesystem := List (String × String)

/-- `Path(p).is_file()` over the modelled filesystem. -/
def isFile (fs : Filesystem) (p : String) : Bool :=
  (List.lookup p fs).isSome

/-- The word-list resolution of `generate_passphrase` (lines 102–116),
returning the path that is opened.  Python truthiness makes an *empty*
explicit path skip every branch, so `fp` is never assigned and the later
`open(fp)` raises `UnboundLocalError`. -/
def resolveWordlist (fs : Filesystem) (file : Option String) :
    Except PyError String :=
  match file with
  | some p =>
    if p = "" then .error .unboundLocalError
    else if isFile fs p then .ok p
    else .error (.fileNotFoundError "Word list does not exist")
  | none =>
    match wordlistFallback.filter (fun p => isFile fs p) with
    | [] => .error (.fileNotFoundError
        "Word list not found. Please provide word-list file")
    | fp :: _ => .ok fp

/-- The fixed delimiter set of `generate_passphrase`. -/
def pyDelimiters : List String := ["-", ".", ",", "_", "+", "~", "*", "|"]

/-- The delimiter policy: a supplied (truthy) delimiter is used as is,
otherwise one is drawn from the fixed set (`dOracle` supplies the uniform
index of that single draw). -/
def chooseDelimiter (delimiter : Option String) (dOracle : ℕ) : String :=
  match delimiter with
  | some d => if d = "" then pyDelimiters.getD (dOracle % pyDelimiters.length) "-" else d
  | none => pyDelimiters.getD (dOracle % pyDelimiters.length) "-"

/-- `generate_passphrase(args)` from `pwgen.py`: reject word counts `≤ 3`,
resolve and load the word list, choose a delimiter, then join
`args.length` uniform word draws (`wOracle i` is the index of draw `i`).
`secrets.choice` on an empty word list raises `IndexError`. -/
def generate_passphrase (length : ℤ) (delimiter : Option String)
    (capitalize : Bool) (file : Option String) (fs : Filesystem)
    (dOracle : ℕ) (wOracle : ℕ → ℕ) : Except PyError String :=
  if length ≤ 3 then
    .error (.valueError "Passphrase must be greater than 3 words")
  else
    match resolveWordlist fs file with
    | .error e => .error e
    | .ok fp =>
      let delim := chooseDelimiter delimiter dOracle
      let words := loadWords capitalize ((List.lookup fp fs).getD "")
      if words.isEmpty then .error .indexError
      else
        .ok (String.intercalate delim
          ((List.range length.toNat).map fun i =>
            words.getD (wOracle i % words.length) ""))

/-- One hex digit, lowercase. -/
def hexDigit (d : ℕ) : Char :=
  if d < 10 then Char.ofNat (48 + d) else Char.ofNat (87 + d)

/-- Render one byte as two lowercase hex digits. -/
def byteToHex (b : ℕ) : List Char := [hexDigit (b / 16 % 16), hexDigit (b % 16)]

/-- `secrets.token_hex(n)`: `n` random bytes (the oracle supplies each byte,
reduced mod 256), each rendered as two hex digits. -/
def tokenHex (n : ℕ) (bytes : ℕ → ℕ) : List Char :=
  ((List.range n).map fun i => byteToHex (bytes i % 256)).flatten

/-- `generate_token(args)` from `pwgen.py`: reject byte counts `≤ 31`, then
return `secrets.token_hex(args.length)`. -/
def generate_token (length : ℤ) (bytes : ℕ → ℕ) : Except PyError String :=
  if length ≤ 31 then
    .error (.valueError "Token length must be greater than 31")
  else
    .ok ⟨tokenHex length.toNat bytes⟩

/-- A lowercase hexadecimal character, `[0-9a-f]`. -/
def isHexLower (c : Char) : Bool :=
  (decide ('0' ≤ c) && decide (c ≤ '9')) || (decide ('a' ≤ c) && decide (c ≤ 'f'))

/-- `count/len(input)`: the relative frequency of character `c` in `l`. -/
noncomputable def charProb (l : List Char) (c : Char) : ℝ :=
  (l.count c : ℝ) / (l.length : ℝ)

/-- `-Σ p·log2(p)` over the distinct characters of `l`. -/
noncomputable def shannonVal (l : List Char) : ℝ :=
  -((l.dedup.map fun c => charProb l c * Real.logb 2 (charProb l c)).sum)

/-- Modelled from the spec: the repository variant under `src/` does not
contain the `entropy STRING` subcommand; per §4.5 of the spec,
`shannon_entropy(input)` computes `-Σ p·log2(p)` over the input's
character-frequency distribution and fails with `InvalidInput` on an
empty or absent input. -/
noncomputable def shannon_entropy (s : String) : Except PyError ℝ :=
  if s.data.isEmpty then .error .invalidInput else .ok (shannonVal s.data)

/-- The floor of `l * log2 n` is the exact integer logarithm of `n ^ l`. -/
theorem entropy_eq_natLog (l n : ℕ) (hn : 2 ≤ n) :
    entropy l n = Nat.log 2 (n ^ l) := by
  have hpow : ((n ^ l : ℕ) : ℝ) = (n : ℝ) ^ l := by push_cast; ring
  have hb : ((2 : ℕ) : ℝ) = (2 : ℝ) := by norm_num
  have hcast : ((l : ℝ)) * Real.logb 2 (n : ℝ) =
      Real.logb ((2 : ℕ) : ℝ) (((n ^ l : ℕ) : ℝ)) := by
    rw [hpow, hb, Real.logb_pow]
  have h0 : (0 : ℝ) ≤ ((n ^ l : ℕ) : ℝ) := by positivity
  rw [entropy, hcast, Real.floor_logb_natCast h0, Int.log_natCast]

/-- A default-valued lookup at an index reduced mod the length lands in the
list whenever the list is nonempty. -/
theorem getD_mod_mem {α : Type} (l : List α) (d : α) (i : ℕ) (h : l ≠ []) :
    l.getD (i % l.length) d ∈ l := by
  have hlen : 0 < l.length := List.length_pos.mpr h
  have hm : i % l.length < l.length := Nat.mod_lt _ hlen
  rw [List.getD_eq_getElem l d hm]
  exact List.getElem_mem hm

/-- Every candidate draw has exactly the requested length. -/
theorem drawList_length (chars : List Char) (pick : ℕ → ℕ) (len : ℕ) :
    (drawList chars pick len).length = len := by
  simp [drawList]

/-- Every character of a candidate draw comes from the sampling alphabet. -/
theorem drawList_mem (chars : List Char) (pick : ℕ → ℕ) (len : ℕ)
    (h : chars ≠ []) : ∀ c ∈ drawList chars pick len, c ∈ chars := by
  intro c hc
  simp only [drawList, List.mem_map, List.mem_range] at hc
  obtain ⟨i, _, rfl⟩ := hc
  exact getD_mod_mem chars ' ' (pick i) h

/-- Anything the rejection loop returns is an accepted candidate draw. -/
theorem genLoop_sound (chars : List Char) (oracle : ℕ → ℕ → ℕ) (len : ℕ) :
    ∀ fuel k s, genLoop chars oracle len k fuel = some s →
      passwordOk s = true ∧ ∃ j, s = drawList chars (oracle j) len := by
  intro fuel
  induction fuel with
  | zero => intro k s h; simp [genLoop] at h
  | succ n ih =>
    intro k s h
    rw [genLoop] at h
    by_cases hp : passwordOk (drawList chars (oracle k) len) = true
    · simp only [hp, if_true] at h
      cases h
      exact ⟨hp, k, rfl⟩
    · simp only [hp, if_false] at h
      exact ih (k + 1) s h

/-- The sampling alphabet is never empty. -/
theorem passwordChars_ne_nil (punctuation : Bool) :
    passwordChars punctuation ≠ [] := by
  cases punctuation <;> decide

/-- Claim C1: for every length L > 13 and every punctuation flag, any string
returned by `generate_password` has exactly L characters, each drawn from the
declared alphabet, and contains at least one lowercase letter, one uppercase
letter and one digit. -/
theorem generate_password_valid (length : ℤ) (punctuation : Bool)
    (oracle : ℕ → ℕ → ℕ) (fuel : ℕ) (s : String)
    (hl : 13 < length)
    (h : generate_password length punctuation oracle fuel = .ok (some s)) :
    (s.length : ℤ) = length ∧
    (∀ c ∈ s.data, c ∈ passwordChars punctuation) ∧
    s.data.any isLowerA = true ∧
    s.data.any isUpperA = true ∧
    s.data.any isDigitA = true := by
  rw [generate_password, if_neg (by omega)] at h
  cases hgl : genLoop (passwordChars punctuation) oracle length.toNat 0 fuel with
  | none => rw [hgl] at h; simp at h
  | some t =>
    rw [hgl] at h
    have h' : String.mk t = s := by simpa using h
    obtain ⟨hok, j, hdraw⟩ :=
      genLoop_sound (passwordChars punctuation) oracle length.toNat fuel 0 t hgl
    have hdata : s.data = t := by rw [← h']
    have hlen : t.length = length.toNat := by rw [hdraw, drawList_length]
    have hmem : ∀ c ∈ t, c ∈ passwordChars punctuation := by
      rw [hdraw]
      exact drawList_mem _ _ _ (passwordChars_ne_nil punctuation)
    have hok' := hok
    rw [passwordOk, Bool.and_eq_true, Bool.and_eq_true] at hok'
    refine ⟨?_, ?_, ?_, ?_, ?_⟩
    · have hsl : s.length = t.length := by rw [← h']; rfl
      rw [hsl, hlen, Int.toNat_of_nonneg (by omega)]
    · rw [hdata]; exact hmem
    · rw [hdata]; exact hok'.1.1
    · rw [hdata]; exact hok'.1.2
    · rw [hdata]; exact hok'.2

/-- Witness for C1: a concrete 14-character run whose oracle draws an
uppercase letter, a digit, then lowercase letters. -/
theorem generate_password_valid_witness :
    (13 : ℤ) < 14 ∧
    ((("A0aaaaaaaaaaaa" : String).length : ℤ) = 14 ∧
     (∀ c ∈ ("A0aaaaaaaaaaaa" : String).data, c ∈ passwordChars false) ∧
     ("A0aaaaaaaaaaaa" : String).data.any isLowerA = true ∧
     ("A0aaaaaaaaaaaa" : String).data.any isUpperA = true ∧
     ("A0aaaaaaaaaaaa" : String).data.any isDigitA = true) :=
  ⟨by decide,
   generate_password_valid 14 false
     (fun _ i => if i = 0 then 26 else if i = 1 then 52 else 0) 1
     "A0aaaaaaaaaaaa" (by decide) rfl⟩

/-- Claim C5: for every length L ≤ 13, `generate_password` fails with the
`InvalidLength` error and produces no secret, for every oracle and fuel. -/
theorem generate_password_invalid_length (length : ℤ) (punctuation : Bool)
    (oracle : ℕ → ℕ → ℕ) (fuel : ℕ) (h : length ≤ 13) :
    generate_password length punctuation oracle fuel =
      .error (.valueError "Password length must be greater than 13 characters") := by
  rw [generate_password, if_pos h]

/-- Witness for C5: the boundary length 13 is rejected. -/
theorem generate_password_invalid_length_witness :
    (13 : ℤ) ≤ 13 ∧
    generate_password 13 true (fun _ _ => 0) 5 =
      .error (.valueError "Password length must be greater than 13 characters") :=
  ⟨by decide, generate_password_invalid_length 13 true (fun _ _ => 0) 5 (by decide)⟩

/-- Claim C2: for every length L ≥ 0 and symbol-space size N ≥ 2, the entropy
estimator returns the integer `floor(L·log2(N))` — exactly the integer
logarithm of `N ^ L` in base 2 — and in particular `entropy 10 62 = 59`. -/
theorem entropy_floor_log2 (l n : ℕ) (hn : 2 ≤ n) :
    entropy l n = Nat.log 2 (n ^ l) ∧ entropy 10 62 = 59 := by
  constructor
  · exact entropy_eq_natLog l n hn
  · have h59 : Nat.log 2 (62 ^ 10) = 59 :=
      Nat.log_eq_of_pow_le_of_lt_pow (by norm_num) (by norm_num)
    rw [entropy_eq_natLog 10 62 (by norm_num), h59]
    norm_num

/-- Witness for C2: `bits(10, 62) = 59`. -/
theorem entropy_floor_log2_witness :
    2 ≤ 62 ∧ entropy 10 62 = 59 :=
  ⟨by norm_num, (entropy_floor_log2 10 62 (by norm_num)).2⟩

set_option maxRecDepth 4000 in
/-- A hex rendering of a byte value consists of lowercase hex characters. -/
theorem byteToHex_hex : ∀ b < 256, ∀ c ∈ byteToHex b, isHexLower c = true := by
  decide

/-- `token_hex` renders two characters per byte. -/
theorem tokenHex_length (n : ℕ) (bytes : ℕ → ℕ) :
    (tokenHex n bytes).length = 2 * n := by
  rw [tokenHex, List.length_flatten, List.map_map]
  have hconst : (List.length ∘ fun i => byteToHex (bytes i % 256)) =
      fun _ : ℕ => 2 := by
    funext i; rfl
  rw [hconst, List.map_const', List.sum_replicate, List.length_range]
  simp [smul_eq_mul, Nat.mul_comm]

/-- Claim C6: `generate_token` rejects byte counts ≤ 31 with `InvalidLength`;
for byte counts > 31 it returns a string of exactly `2·b` lowercase
hexadecimal characters (so `generate_token 32` yields 64 hex characters). -/
theorem generate_token_spec (length : ℤ) (bytes : ℕ → ℕ) :
    (length ≤ 31 →
      generate_token length bytes =
        .error (.valueError "Token length must be greater than 31")) ∧
    (31 < length →
      ∃ s : String, generate_token length bytes = .ok s ∧
        (s.length : ℤ) = 2 * length ∧
        ∀ c ∈ s.data, isHexLower c = true) := by
  constructor
  · intro h
    rw [generate_token, if_pos h]
  · intro h
    refine ⟨⟨tokenHex length.toNat bytes⟩, ?_, ?_, ?_⟩
    · rw [generate_token, if_neg (by omega)]
    · show ((tokenHex length.toNat bytes).length : ℤ) = 2 * length
      rw [tokenHex_length]
      push_cast [Int.toNat_of_nonneg (show (0:ℤ) ≤ length by omega)]
      ring
    · intro c hc
      show isHexLower c = true
      simp only [tokenHex, List.mem_flatten, List.mem_map, List.mem_range] at hc
      obtain ⟨piece, ⟨i, _, rfl⟩, hcp⟩ := hc
      exact byteToHex_hex (bytes i % 256) (Nat.mod_lt _ (by norm_num)) c hcp

/-- Witness for C6: 32 bytes with byte oracle `i ↦ i` give the expected
64-character lowercase hex token. -/
theorem generate_token_spec_witness :
    (31 : ℤ) < 32 ∧
    ∃ s : String, generate_token 32 (fun i => i) = .ok s ∧
      (s.length : ℤ) = 2 * 32 ∧
      ∀ c ∈ s.data, isHexLower c = true :=
  ⟨by decide, (generate_token_spec 32 (fun i => i)).2 (by decide)⟩

/-- Claim C10: for every byte count b > 31, the entropy report of the hex
token generator states exactly `8·b` bits — `floor(2·b·log2 16) = 8·b` —
and `16^(2·b)` possible combinations. -/
theorem token_entropy_report (length : ℤ) (bytes : ℕ → ℕ) (s : String)
    (h : 31 < length)
    (hs : generate_token length bytes = .ok s) :
    entropy s.length 16 = 8 * length ∧
    combinations s.length 16 = (16 : ℝ) ^ (2 * length.toNat) := by
  have hs' : (⟨tokenHex length.toNat bytes⟩ : String) = s := by
    rw [generate_token, if_neg (by omega)] at hs
    simpa using hs
  have hsl : s.length = 2 * length.toNat := by
    rw [← hs']
    exact tokenHex_length _ _
  constructor
  · rw [hsl, entropy_eq_natLog _ 16 (by norm_num)]
    have hpow : (16 : ℕ) ^ (2 * length.toNat) = 2 ^ (8 * length.toNat) := by
      rw [show (16 : ℕ) = 2 ^ 4 from rfl, ← pow_mul]
      congr 1
      ring
    rw [hpow, Nat.log_pow (by norm_num : 1 < 2)]
    push_cast [Int.toNat_of_nonneg (show (0 : ℤ) ≤ length by omega)]
    ring
  · rw [hsl]
    rfl

/-- Witness for C10: the 32-byte hex token carries 256 bits and a keyspace
of `16^64`. -/
theorem token_entropy_report_witness :
    (31 : ℤ) < 32 ∧
    entropy (String.length
      "000102030405060708090a0b0c0d0e0f101112131415161718191a1b1c1d1e1f") 16 =
      8 * 32 ∧
    combinations (String.length
      "000102030405060708090a0b0c0d0e0f101112131415161718191a1b1c1d1e1f") 16 =
      (16 : ℝ) ^ (2 * (32 : ℤ).toNat) :=
  ⟨by decide,
   token_entropy_report 32 (fun i => i)
     "000102030405060708090a0b0c0d0e0f101112131415161718191a1b1c1d1e1f"
     (by decide) rfl⟩

/-- Claim C4 (failing input): an *empty* explicit word-list path is truthy-
falsy in Python, so none of the three resolution branches runs, `fp` is never
assigned, and the program crashes with `UnboundLocalError` instead of
raising `FileNotFoundError("Word list does not exist")`. -/
theorem resolveWordlist_empty_path_crash :
    resolveWordlist [] (some "") = .error .unboundLocalError := rfl

/-- Claim C3: for every word count C > 3 and nonempty loaded word list, a
successful `generate_passphrase` run is the join, by one single delimiter,
of exactly C words each drawn from the loaded (post-casing) word list; the
delimiter is the supplied one when given (and truthy) and is drawn from the
fixed delimiter set when absent. -/
theorem generate_passphrase_structure (length : ℤ) (delimiter : Option String)
    (capitalize : Bool) (file : Option String) (fs : Filesystem)
    (dOracle : ℕ) (wOracle : ℕ → ℕ) (fp : String) (s : String)
    (hl : 3 < length)
    (hres : resolveWordlist fs file = .ok fp)
    (hw : loadWords capitalize ((List.lookup fp fs).getD "") ≠ [])
    (hout : generate_passphrase length delimiter capitalize file fs dOracle
      wOracle = .ok s) :
    ∃ ws : List String,
      (ws.length : ℤ) = length ∧
      (∀ w ∈ ws, w ∈ loadWords capitalize ((List.lookup fp fs).getD "")) ∧
      s = String.intercalate (chooseDelimiter delimiter dOracle) ws ∧
      (delimiter = none → chooseDelimiter delimiter dOracle ∈ pyDelimiters) ∧
      (∀ d, delimiter = some d → d ≠ "" →
        chooseDelimiter delimiter dOracle = d) := by
  rw [generate_passphrase, if_neg (by omega), hres] at hout
  simp only [] at hout
  rw [if_neg (by simpa [List.isEmpty_iff] using hw)] at hout
  set words := loadWords capitalize ((List.lookup fp fs).getD "") with hwords
  refine ⟨(List.range length.toNat).map
    (fun i => words.getD (wOracle i % words.length) ""), ?_, ?_, ?_, ?_, ?_⟩
  · simp only [List.length_map, List.length_range]
    rw [Int.toNat_of_nonneg (by omega)]
  · intro w hwmem
    simp only [List.mem_map, List.mem_range] at hwmem
    obtain ⟨i, _, rfl⟩ := hwmem
    exact getD_mod_mem words "" (wOracle i) hw
  · have := hout
    simpa using this.symm
  · intro hnone
    rw [hnone]
    exact getD_mod_mem pyDelimiters "-" dOracle (by decide)
  · intro d hd hne
    rw [hd]
    simp [chooseDelimiter, hne]

/-- Witness for C3: four capitalized words drawn round-robin from a two-word
list file, joined by the supplied "-" delimiter. -/
theorem generate_passphrase_structure_witness :
    (3 : ℤ) < 4 ∧
    resolveWordlist [("words.txt", "apple\nbanana\n")] none = .ok "words.txt" ∧
    loadWords true ((List.lookup "words.txt"
      [("words.txt", "apple\nbanana\n")]).getD "") ≠ [] ∧
    generate_passphrase 4 (some "-") true none
      [("words.txt", "apple\nbanana\n")] 0 (fun i => i) =
      .ok "Apple-Banana-Apple-Banana" ∧
    ∃ ws : List String,
      (ws.length : ℤ) = 4 ∧
      (∀ w ∈ ws, w ∈ loadWords true ((List.lookup "words.txt"
        [("words.txt", "apple\nbanana\n")]).getD "")) ∧
      "Apple-Banana-Apple-Banana" =
        String.intercalate (chooseDelimiter (some "-") 0) ws ∧
      ((some "-" : Option String) = none →
        chooseDelimiter (some "-") 0 ∈ pyDelimiters) ∧
      (∀ d, (some "-" : Option String) = some d → d ≠ "" →
        chooseDelimiter (some "-") 0 = d) :=
  ⟨by decide, rfl, by decide, rfl,
   generate_passphrase_structure 4 (some "-") true none
     [("words.txt", "apple\nbanana\n")] 0 (fun i => i) "words.txt"
     "Apple-Banana-Apple-Banana" (by decide) rfl (by decide) rfl⟩

/-- Claim C7: the Shannon-entropy calculator over a string's character
frequencies gives `0.0` on `"aaaa"`, `1.0` on `"ab"`, and fails with
`InvalidInput` on the empty string. -/
theorem shannon_entropy_spec :
    shannon_entropy "aaaa" = .ok 0 ∧
    shannon_entropy "ab" = .ok 1 ∧
    shannon_entropy "" = .error .invalidInput := by
  refine ⟨?_, ?_, rfl⟩
  · have hdata : ("aaaa" : String).data = ['a', 'a', 'a', 'a'] := by decide
    rw [shannon_entropy, hdata]
    rw [if_neg (by decide)]
    have hdedup : (['a', 'a', 'a', 'a'] : List Char).dedup = ['a'] := by decide
    have hval : shannonVal ['a', 'a', 'a', 'a'] = 0 := by
      rw [shannonVal, hdedup]
      have hp : charProb ['a', 'a', 'a', 'a'] 'a' = 1 := by
        rw [charProb]
        norm_num [show List.count 'a' ['a', 'a', 'a', 'a'] = 4 from by decide]
      simp [hp]
    rw [hval]
  · have hdata : ("ab" : String).data = ['a', 'b'] := by decide
    rw [shannon_entropy, hdata]
    rw [if_neg (by decide)]
    have hdedup : (['a', 'b'] : List Char).dedup = ['a', 'b'] := by decide
    have hpa : charProb ['a', 'b'] 'a' = 2⁻¹ := by
      rw [charProb]
      norm_num [show List.count 'a' ['a', 'b'] = 1 from by decide]
    have hpb : charProb ['a', 'b'] 'b' = 2⁻¹ := by
      rw [charProb]
      norm_num [show List.count 'b' ['a', 'b'] = 1 from by decide]
    have hlog : Real.logb 2 (2⁻¹ : ℝ) = -1 := by
      rw [Real.logb_inv, Real.logb_self_eq_one (by norm_num)]
    have hval : shannonVal ['a', 'b'] = 1 := by
      rw [shannonVal, hdedup]
      simp only [List.map_cons, List.map_nil, List.sum_cons, List.sum_nil,
        hpa, hpb, hlog]
      norm_num
    rw [hval]

/-- Counterexample for C8: without `--capitalize` the loader does not pick a
single random casing per word — it deterministically loads *both* the
uppercase and the lowercase form of every line (two entries for the single
word "ab"); and with `--capitalize`, Python title-casing capitalizes after
every non-letter ("Ab-Cd"), not "first letter uppercase, rest lowercase"
("Ab-cd"). -/
theorem passphrase_casing_cx :
    loadWords false "ab\n" = ["AB", "ab"] ∧
    (loadWords false "ab\n").length ≠ 1 ∧
    loadWords true "ab-cd\n" = ["Ab-Cd"] ∧
    ("Ab-Cd" : String) ≠ "Ab-cd" := by decide

/-- Claim C8 (amended): with `capitalize`, every loaded word is a line
transformed by Python-style title casing (head of every alphabetic run
uppercased, other cased characters lowercased) and stripped; without it the
loaded list deterministically contains, for each line and in order, both its
fully-uppercase and its fully-lowercase stripped form — twice as many
entries as lines — and random casing arises only by sampling that doubled
list. -/
theorem passphrase_casing (content : String) :
    (∀ w ∈ loadWords true content, ∃ l ∈ pyReadlines content.data,
        w = String.mk (pyStrip (pyTitle l))) ∧
    (loadWords false content).length = 2 * (pyReadlines content.data).length ∧
    (∀ l ∈ pyReadlines content.data,
        String.mk (pyStrip (pyUpper l)) ∈ loadWords false content ∧
        String.mk (pyStrip (pyLower l)) ∈ loadWords false content) ∧
    (∀ w ∈ loadWords false content, ∃ l ∈ pyReadlines content.data,
        w = String.mk (pyStrip (pyUpper l)) ∨
        w = String.mk (pyStrip (pyLower l))) := by
  refine ⟨?_, ?_, ?_, ?_⟩
  · intro w hw
    simp only [loadWords, if_pos, List.mem_map] at hw
    obtain ⟨l, hl, rfl⟩ := hw
    exact ⟨l, hl, rfl⟩
  · rw [show loadWords false content = ((pyReadlines content.data).map fun l =>
      [(⟨pyStrip (pyUpper l)⟩ : String), ⟨pyStrip (pyLower l)⟩]).flatten from rfl]
    rw [List.length_flatten, List.map_map]
    have hc : (List.length ∘ fun l : List Char =>
        [(⟨pyStrip (pyUpper l)⟩ : String), ⟨pyStrip (pyLower l)⟩]) =
        fun _ : List Char => 2 := by
      funext l; rfl
    rw [hc, List.map_const', List.sum_replicate]
    simp [smul_eq_mul, Nat.mul_comm]
  · intro l hl
    constructor
    · exact List.mem_flatten.mpr ⟨_, List.mem_map.mpr ⟨l, hl, rfl⟩, by simp⟩
    · exact List.mem_flatten.mpr ⟨_, List.mem_map.mpr ⟨l, hl, rfl⟩, by simp⟩
  · intro w hw
    rw [show loadWords false content = ((pyReadlines content.data).map fun l =>
      [(⟨pyStrip (pyUpper l)⟩ : String), ⟨pyStrip (pyLower l)⟩]).flatten from rfl]
      at hw
    obtain ⟨piece, hpiece, hwp⟩ := List.mem_flatten.mp hw
    obtain ⟨l, hl, rfl⟩ := List.mem_map.mp hpiece
    simp only [List.mem_cons, List.not_mem_nil, or_false] at hwp
    rcases hwp with h | h
    · exact ⟨l, hl, Or.inl h⟩
    · exact ⟨l, hl, Or.inr h⟩

/-- Witness for C8: the capitalized load of a one-line file "ab" yields
exactly the title-cased, stripped word "Ab". -/
theorem passphrase_casing_witness :
    ∃ l ∈ pyReadlines ("ab\n" : String).data,
      ("Ab" : String) = String.mk (pyStrip (pyTitle l)) :=
  (passphrase_casing "ab\n").1 "Ab" (by decide)

/-- Line count of `readlines`: one line per newline, plus a final line when
the text does not end in a newline (the accumulator holds a partial line). -/
theorem readlinesAux_length (cs : List Char) : ∀ acc : List Char,
    (readlinesAux acc cs).length =
      cs.count '\n' +
        (if cs = [] then (if acc = [] then 0 else 1)
         else if cs.getLast? = some '\n' then 0 else 1) := by
  induction cs with
  | nil =>
    intro acc
    cases acc <;> simp [readlinesAux]
  | cons c cs ih =>
    intro acc
    rw [readlinesAux]
    by_cases hc : c = '\n'
    · subst hc
      rw [if_pos rfl, List.length_cons, ih []]
      cases cs with
      | nil => simp
      | cons d ds =>
        rw [List.getLast?_cons_cons]
        by_cases hlast : (d :: ds).getLast? = some '\n' <;>
          simp [List.count_cons, hlast]
    · rw [if_neg hc, ih (c :: acc)]
      cases cs with
      | nil => simp [List.count_cons, hc]
      | cons d ds =>
        rw [List.getLast?_cons_cons]
        by_cases hlast : (d :: ds).getLast? = some '\n' <;>
          simp [List.count_cons, hlast, hc]

/-- Counterexample for C9: the loader does not discard empty lines — a blank
line loads as the empty string — and it strips *leading* whitespace too, not
only trailing whitespace ("  ab" loads as "Ab", not "  Ab"). -/
theorem wordlist_loading_cx :
    loadWords true "  ab\n\n" = ["Ab", ""] ∧
    ("" : String) ∈ loadWords true "  ab\n\n" ∧
    ("  Ab" : String) ∉ loadWords true "  ab\n\n" := by decide

/-- Claim C9 (amended): the loaded word list has one entry per line of the
file with `capitalize` (two otherwise), each entry being a line with casing
applied and leading *and* trailing whitespace stripped; empty lines are kept
as empty-string entries, and duplicates are kept.  The number of lines is
the number of newlines plus one for a final unterminated line. -/
theorem wordlist_loading (capitalize : Bool) (content : String) :
    (loadWords capitalize content).length =
      (if capitalize then 1 else 2) * (pyReadlines content.data).length ∧
    (∀ w ∈ loadWords capitalize content, ∃ l ∈ pyReadlines content.data,
        w = String.mk (pyStrip (pyTitle l)) ∨
        w = String.mk (pyStrip (pyUpper l)) ∨
        w = String.mk (pyStrip (pyLower l))) ∧
    (pyReadlines content.data).length =
      content.data.count '\n' +
        (if content.data = [] ∨ content.data.getLast? = some '\n' then 0
         else 1) := by
  refine ⟨?_, ?_, ?_⟩
  · cases capitalize with
    | true => simp [loadWords]
    | false =>
      rw [show loadWords false content = ((pyReadlines content.data).map fun l =>
        [(⟨pyStrip (pyUpper l)⟩ : String), ⟨pyStrip (pyLower l)⟩]).flatten from rfl]
      rw [List.length_flatten, List.map_map]
      have hc : (List.length ∘ fun l : List Char =>
          [(⟨pyStrip (pyUpper l)⟩ : String), ⟨pyStrip (pyLower l)⟩]) =
          fun _ : List Char => 2 := by
        funext l; rfl
      rw [hc, List.map_const', List.sum_replicate]
      simp [smul_eq_mul, Nat.mul_comm]
  · intro w hw
    cases capitalize with
    | true =>
      simp only [loadWords, if_pos, List.mem_map] at hw
      obtain ⟨l, hl, rfl⟩ := hw
      exact ⟨l, hl, Or.inl rfl⟩
    | false =>
      rw [show loadWords false content = ((pyReadlines content.data).map fun l =>
        [(⟨pyStrip (pyUpper l)⟩ : String), ⟨pyStrip (pyLower l)⟩]).flatten from rfl]
        at hw
      obtain ⟨piece, hpiece, hwp⟩ := List.mem_flatten.mp hw
      obtain ⟨l, hl, rfl⟩ := List.mem_map.mp hpiece
      simp only [List.mem_cons, List.not_mem_nil, or_false] at hwp
      rcases hwp with h | h
      · exact ⟨l, hl, Or.inr (Or.inl h)⟩
      · exact ⟨l, hl, Or.inr (Or.inr h)⟩
  · rw [pyReadlines, readlinesAux_length]
    cases hcd : content.data with
    | nil => simp
    | cons c cs =>
      have hne : c :: cs ≠ [] := by simp
      rw [if_neg hne]
      by_cases hlast : (c :: cs).getLast? = some '\n'
      · simp [hlast]
      · simp [hlast]

/-- Witness for C9: the single line "x" loads, capitalized, to exactly "X". -/
theorem wordlist_loading_witness :
    ∃ l ∈ pyReadlines ("x\n" : String).data,
      ("X" : String) = String.mk (pyStrip (pyTitle l)) ∨
      ("X" : String) = String.mk (pyStrip (pyUpper l)) ∨
      ("X" : String) = String.mk (pyStrip (pyLower l)) :=
  (wordlist_loading true "x\n").2.1 "X" (by decide)
